import Mathlib

/-
Verification development for the ANUGA damage-modelling engine
(anuga/damage_modelling).  The repository ships the unit tests of the
engine (test_inundation_damage.py) but the module inundation_damage.py
itself is not among the provided sources, so the engine is modelled from
the specification and checked against the expectations recorded in the
unit tests.  All numeric quantities are modelled as exact rationals.
-/

/-- Modelled from the spec: the closed wall-category enumeration used by the
damage-curve dispatch (the source module inundation_damage.py is missing;
the spec lists Double Brick, Timber and Brick Veneer as the known
categories). -/
inductive Wall where
  | DoubleBrick
  | Timber
  | BrickVeneer
  deriving DecidableEq, Repr

/-- Modelled from the spec: the structural damage fraction at depth 1 for each
wall category (calibration constraints of section 4.1). -/
def struct_damage_at_one (w : Wall) : ℚ :=
  match w with
  | Wall.DoubleBrick => mkRat 572 1000
  | Wall.Timber => mkRat 618 1000
  | Wall.BrickVeneer => mkRat 618 1000

/-- Modelled from the spec: the depth-to-structural-damage-fraction curve.
The spec pins only the calibration points (depth 0 gives 0.016 for every
category, depth 1 gives 0.572 for Double Brick and 0.618 for Timber and
Brick Veneer) and requires a monotone curve saturating toward 1; negative
depth (dry) gives 0.  Between and beyond the calibration points the curve
coefficients are external reference data flagged open in the spec, so the
model interpolates linearly on [0,1] and saturates toward 1 beyond depth 1;
no claim depends on those unpinned regions. -/
def struct_damage_curve (w : Wall) (d : ℚ) : ℚ :=
  if d < 0 then 0
  else if d ≤ 1 then mkRat 16 1000 + (struct_damage_at_one w - mkRat 16 1000) * d
  else 1 - (1 - struct_damage_at_one w) / d

/-- Modelled from the spec: the depth-to-contents-damage-fraction curve.  The
calibration points (0.013 at depth 0 and 0.970 at depth 1) are
category-independent, so the modelled curve depends on depth only; negative
depth gives 0. -/
def contents_damage_curve (d : ℚ) : ℚ :=
  if d < 0 then 0
  else if d ≤ 1 then mkRat 13 1000 + (mkRat 970 1000 - mkRat 13 1000) * d
  else 1 - (1 - mkRat 970 1000) / d

/-- Modelled from the spec: the Event Damage Model state, created from raw
parallel arrays and mutated in place as each phase runs; modelled here as a
record threaded through the phase functions. -/
structure EventDamageModel where
  max_depths : List ℚ
  shore_distances : List ℚ
  walls : List Wall
  struct_costs : List ℚ
  content_costs : List ℚ
  struct_damage : List ℚ := []
  contents_damage : List ℚ := []
  struct_loss : List ℚ := []
  contents_loss : List ℚ := []
  total_struct_loss : ℚ := 0
  total_contents_loss : ℚ := 0
  deriving DecidableEq, Repr

/-- Modelled from the spec: the Damage Fraction Calculator phase, applied
element-wise over the asset sequence as a pure function of depth and wall
category. -/
def EventDamageModel.calc_damage_percentages (edm : EventDamageModel) : EventDamageModel :=
  { edm with
    struct_damage := List.zipWith (fun w d => struct_damage_curve w d) edm.walls edm.max_depths
    contents_damage := List.zipWith (fun _ d => contents_damage_curve d) edm.walls edm.max_depths }

/-- Modelled from the spec: upper limits of the depth bins of the Hazard
Table; depths at or below 0 fall in the zero-probability bin, the last bin
captures unbounded depth.  The full bin table is flagged as external
reference data in the spec; the bins here are chosen to reproduce every
listed calibration point. -/
def depth_upper_limits : List ℚ := [0, 1, 2, 3, 5]

/-- Modelled from the spec: upper limits of the shore-distance bins of the
Hazard Table; the last bin captures unbounded distance. -/
def shore_upper_limits : List ℚ := [125, 200, 250]

/-- Modelled from the spec: collapse-probability matrix indexed by depth bin
then shore-distance bin, reproducing all calibration points of section
4.2. -/
def collapse_probability_table : List (List ℚ) :=
  [[0, 0, 0, 0],
   [mkRat 5 100, mkRat 2 100, mkRat 1 100, 0],
   [mkRat 6 10, mkRat 3 10, mkRat 1 10, mkRat 5 100],
   [mkRat 8 10, mkRat 4 10, mkRat 25 100, mkRat 15 100],
   [mkRat 95 100, mkRat 7 10, mkRat 5 10, mkRat 3 10],
   [mkRat 99 100, mkRat 9 10, mkRat 65 100, mkRat 45 100]]

/-- Index of the first bin whose upper limit is at least x; past the last
limit the index is the length of the limit list (the unbounded bin). -/
def bin_index (limits : List ℚ) (x : ℚ) : ℕ :=
  match limits with
  | [] => 0
  | l :: ls => if x ≤ l then 0 else bin_index ls x + 1

/-- Modelled from the spec: the two-dimensional (depth, shore-distance)
collapse-probability lookup of the Hazard Table. -/
def collapse_probability_lookup (depth shore_distance : ℚ) : ℚ :=
  (collapse_probability_table.getD (bin_index depth_upper_limits depth) []).getD
    (bin_index shore_upper_limits shore_distance) 0

/-- Append index i to the group keyed by probability p, lazily creating the
group on first use (single-pass construction of the inverted index,
section 9 of the spec). -/
def add_to_group (groups : List (ℚ × List ℕ)) (p : ℚ) (i : ℕ) : List (ℚ × List ℕ) :=
  match groups with
  | [] => [(p, [i])]
  | (q, js) :: rest =>
      if q = p then (q, js ++ [i]) :: rest
      else (q, js) :: add_to_group rest p i

/-- One pass over the (depth, shore-distance) pairs starting at asset index
i, grouping nonzero looked-up probabilities. -/
def group_pass (pairs : List (ℚ × ℚ)) (i : ℕ) (groups : List (ℚ × List ℕ)) :
    List (ℚ × List ℕ) :=
  match pairs with
  | [] => groups
  | (d, sd) :: rest =>
      let p := collapse_probability_lookup d sd
      group_pass rest (i + 1) (if p = 0 then groups else add_to_group groups p i)

/-- Modelled from the spec: the Collapse Probability Calculator phase.  A
single pass looks up each asset's probability and appends its index to the
corresponding group; zero-probability assets are excluded. -/
def EventDamageModel.calc_collapse_probability (edm : EventDamageModel) :
    List (ℚ × List ℕ) :=
  group_pass (edm.max_depths.zip edm.shore_distances) 0 []

/-- Modelled from the spec: rounding half away from zero (standard round half
up for positive values). -/
def round_half_away_from_zero (x : ℚ) : ℤ :=
  if 0 ≤ x then Int.floor (x + mkRat 1 2) else Int.ceil (x - mkRat 1 2)

/-- Modelled from the spec: the expected collapse count of a group with
probability p and size n, clamped into [0, n]. -/
def collapse_count (p : ℚ) (n : ℕ) : ℕ :=
  min n (round_half_away_from_zero (p * n)).toNat

/-- Modelled from the spec: validity of an injectable random source.  Asked
for k members of a duplicate-free list of at least k indices, it returns k
distinct members of that list (selection without replacement); which
members it returns is unconstrained. -/
def ValidPick (pick : ℕ → List ℕ → List ℕ) : Prop :=
  ∀ k l, k ≤ l.length → l.Nodup →
    (pick k l).length = k ∧ (pick k l).Nodup ∧ ∀ j ∈ pick k l, j ∈ l

/-- Modelled from the spec: the Stochastic Collapse Resolver's selection,
returning the set of collapsed indices drawn from every group via the
injected random source. -/
def resolve_collapses (pick : ℕ → List ℕ → List ℕ) : List (ℚ × List ℕ) → List ℕ
  | [] => []
  | (p, js) :: rest =>
      pick (collapse_count p js.length) js ++ resolve_collapses pick rest

/-- Force the entries of xs at positions (offset by i) listed in collapsed to
1, leaving the other entries unchanged. -/
def override_from (collapsed : List ℕ) (i : ℕ) : List ℚ → List ℚ
  | [] => []
  | x :: xs => (if i ∈ collapsed then 1 else x) :: override_from collapsed (i + 1) xs

/-- Modelled from the spec: the collapse override, forcing both damage
fractions of every collapsed asset to exactly 1. -/
def EventDamageModel.apply_collapse (edm : EventDamageModel) (collapsed : List ℕ) :
    EventDamageModel :=
  { edm with
    struct_damage := override_from collapsed 0 edm.struct_damage
    contents_damage := override_from collapsed 0 edm.contents_damage }

/-- Modelled from the spec: the Stochastic Collapse Resolver phase
(source name _calc_collapse_structures).  The verbose flag is purely
observational and has no effect on the outcome. -/
def EventDamageModel.calc_collapse_structures (pick : ℕ → List ℕ → List ℕ)
    (edm : EventDamageModel) (groups : List (ℚ × List ℕ)) (verbose_csv : Bool) :
    EventDamageModel :=
  let _ := verbose_csv
  edm.apply_collapse (resolve_collapses pick groups)

/-- Modelled from the spec: the Cost Aggregator phase; loss equals fraction
times cost, independently for structure and contents, and event totals
accumulate the per-asset losses. -/
def EventDamageModel.calc_cost (edm : EventDamageModel) : EventDamageModel :=
  let sl := List.zipWith (fun f c => f * c) edm.struct_damage edm.struct_costs
  let cl := List.zipWith (fun f c => f * c) edm.contents_damage edm.content_costs
  { edm with
    struct_loss := sl
    contents_loss := cl
    total_struct_loss := sl.foldl (fun a b => a + b) 0
    total_contents_loss := cl.foldl (fun a b => a + b) 0 }

/-- Modelled from the spec: the convenience pipeline running every phase in
order. -/
def EventDamageModel.calc_damage_and_costs (pick : ℕ → List ℕ → List ℕ)
    (edm : EventDamageModel) (verbose_csv : Bool) : EventDamageModel :=
  let edm1 := edm.calc_damage_percentages
  let groups := edm1.calc_collapse_probability
  let edm2 := EventDamageModel.calc_collapse_structures pick edm1 groups verbose_csv
  edm2.calc_cost

/-- Modelled from the spec: normalisation of a free-form wall-category string
to the enumeration; an unknown category yields none. -/
def parse_wall (s : String) : Option Wall :=
  if s = "Double Brick" then some Wall.DoubleBrick
  else if s = "Timber" then some Wall.Timber
  else if s = "Brick Veneer" then some Wall.BrickVeneer
  else none

/-- Parse every wall-category string, failing if any one is unknown. -/
def parse_walls : List String → Option (List Wall)
  | [] => some []
  | s :: rest =>
      match parse_wall s, parse_walls rest with
      | some w, some ws => some (w :: ws)
      | _, _ => none

/-- Modelled from the spec: the checked constructor of the Event Damage Model
from raw parallel arrays.  It fails fast (returns none, rejecting the whole
computation) on any precondition violation: mismatched array lengths, a
negative cost, or a wall category outside the known enumeration. -/
def EventDamageModel.make (max_depths shore_distances : List ℚ) (walls : List String)
    (struct_costs content_costs : List ℚ) : Option EventDamageModel :=
  if max_depths.length = shore_distances.length ∧
     max_depths.length = walls.length ∧
     max_depths.length = struct_costs.length ∧
     max_depths.length = content_costs.length then
    if (∀ c ∈ struct_costs, 0 ≤ c) ∧ (∀ c ∈ content_costs, 0 ≤ c) then
      match parse_walls walls with
      | some ws =>
          some { max_depths := max_depths
                 shore_distances := shore_distances
                 walls := ws
                 struct_costs := struct_costs
                 content_costs := content_costs }
      | none => none
    else none
  else none

/-- The deterministic stand-in random source used by the unit tests' spirit:
always pick the first k indices of the group. -/
def take_pick (k : ℕ) (l : List ℕ) : List ℕ := l.take k

/-- The probability-to-indices map of test_calc_collapse_structures. -/
def test_groups : List (ℚ × List ℕ) :=
  [(mkRat 4 10, [0]), (mkRat 6 10, [1]), (mkRat 5 10, [2]), (mkRat 25 100, [3, 4]),
   (mkRat 1 10, [5, 6, 7, 8]), (mkRat 2 10, [9, 10, 11, 12, 13, 14, 15, 16])]

/-- The model of test_calc_collapse_probability: eight assets with the
calibration depths and shore distances. -/
def edm_prob_test : EventDamageModel :=
  { max_depths := [0, mkRat 1 2, mkRat 1 2, mkRat 3 2, mkRat 5 2, mkRat 9 2, 10000, 2]
    shore_distances := [0, 125, mkRat 2501 10, 0, 150, 225, 10000, 251]
    walls := []
    struct_costs := []
    content_costs := [] }

/-- The model of test_calc_damage_percentages: nine assets cycling the three
wall categories over depths -0.3, 0.0 and 1.0. -/
def edm_damage_test : EventDamageModel :=
  { max_depths := [mkRat (-3) 10, 0, 1, mkRat (-3) 10, 0, 1, mkRat (-3) 10, 0, 1]
    shore_distances := [100, 100, 100, 100, 100, 100, 100, 100, 100]
    walls := [Wall.DoubleBrick, Wall.DoubleBrick, Wall.DoubleBrick,
              Wall.Timber, Wall.Timber, Wall.Timber,
              Wall.BrickVeneer, Wall.BrickVeneer, Wall.BrickVeneer]
    struct_costs := [10, 10, 10, 10, 10, 10, 1, 1, 1]
    content_costs := [100, 100, 100, 100, 100, 100, 10, 10, 10] }

/-- The 17-asset model of test_calc_collapse_structures, with both damage
arrays initialised to zero. -/
def edm_collapse_test : EventDamageModel :=
  { max_depths := List.replicate 17 0
    shore_distances := List.replicate 17 0
    walls := List.replicate 17 Wall.Timber
    struct_costs := List.replicate 17 0
    content_costs := List.replicate 17 0
    struct_damage := List.replicate 17 0
    contents_damage := List.replicate 17 0 }

/-- The single-asset cost model used to witness the cost aggregator. -/
def edm_cost_test : EventDamageModel :=
  { max_depths := [1]
    shore_distances := [100]
    walls := [Wall.Timber]
    struct_costs := [10]
    content_costs := [100]
    struct_damage := [mkRat 618 1000]
    contents_damage := [mkRat 970 1000] }

/-- Accumulating a list of rationals by left fold equals the list sum. -/
theorem foldl_add_eq_sum (l : List ℚ) : ∀ a : ℚ, l.foldl (fun x y => x + y) a = a + l.sum := by
  induction l with
  | nil => intro a; simp
  | cons x xs ih => intro a; simp [List.foldl_cons, ih, List.sum_cons]; ring

/-- C2: on the depth array [0.0, 0.5, 0.5, 1.5, 2.5, 4.5, 10000, 2.0] and
shore-distance array [0.0, 125, 250.1, 0.0, 150, 225, 10000, 251] the
collapse-probability grouping is exactly the map 0.05 to [1,7], 0.6 to [3],
0.4 to [4], 0.5 to [5], 0.45 to [6], and the zero-probability assets 0 and 2
appear in no group. -/
theorem calc_collapse_probability_test :
    edm_prob_test.calc_collapse_probability =
      [(mkRat 5 100, [1, 7]), (mkRat 6 10, [3]), (mkRat 4 10, [4]),
       (mkRat 5 10, [5]), (mkRat 45 100, [6])] ∧
    ∀ g ∈ edm_prob_test.calc_collapse_probability, (0 : ℕ) ∉ g.2 ∧ (2 : ℕ) ∉ g.2 := by
  decide

/-- C3: the damage fraction calculator reproduces the calibration points
exactly: at depth 0 every wall category yields struct fraction 0.016 and
contents fraction 0.013; at depth 1 Double Brick yields struct 0.572 while
Timber and Brick Veneer yield 0.618, and contents 0.970; the nine-asset test
vector evaluates to exactly the expected fraction arrays. -/
theorem calc_damage_percentages_calibration :
    (∀ w : Wall, struct_damage_curve w 0 = mkRat 16 1000) ∧
    contents_damage_curve 0 = mkRat 13 1000 ∧
    struct_damage_curve Wall.DoubleBrick 1 = mkRat 572 1000 ∧
    struct_damage_curve Wall.Timber 1 = mkRat 618 1000 ∧
    struct_damage_curve Wall.BrickVeneer 1 = mkRat 618 1000 ∧
    contents_damage_curve 1 = mkRat 970 1000 ∧
    edm_damage_test.calc_damage_percentages.struct_damage =
      [0, mkRat 16 1000, mkRat 572 1000, 0, mkRat 16 1000, mkRat 618 1000,
       0, mkRat 16 1000, mkRat 618 1000] ∧
    edm_damage_test.calc_damage_percentages.contents_damage =
      [0, mkRat 13 1000, mkRat 970 1000, 0, mkRat 13 1000, mkRat 970 1000,
       0, mkRat 13 1000, mkRat 970 1000] := by
  refine ⟨?_, ?_, ?_, ?_, ?_, ?_, ?_, ?_⟩
  · intro w
    cases w <;> norm_num [struct_damage_curve, struct_damage_at_one, Rat.mkRat_eq_div]
  · norm_num [contents_damage_curve, Rat.mkRat_eq_div]
  · norm_num [struct_damage_curve, struct_damage_at_one, Rat.mkRat_eq_div]
  · norm_num [struct_damage_curve, struct_damage_at_one, Rat.mkRat_eq_div]
  · norm_num [struct_damage_curve, struct_damage_at_one, Rat.mkRat_eq_div]
  · norm_num [contents_damage_curve, Rat.mkRat_eq_div]
  · norm_num [EventDamageModel.calc_damage_percentages, edm_damage_test,
      struct_damage_curve, struct_damage_at_one, Rat.mkRat_eq_div, List.zipWith]
  · norm_num [EventDamageModel.calc_damage_percentages, edm_damage_test,
      contents_damage_curve, Rat.mkRat_eq_div, List.zipWith]

/-- C4 counterexample: asset 1 of the nine-asset test vector has depth
exactly 0 (so depth is at most 0), yet its computed fractions are 0.016 and
0.013, not 0; the claim that depth at most 0 forces zero fractions is
therefore false on the engine. -/
theorem depth_zero_not_dry :
    edm_damage_test.max_depths.get? 1 = some 0 ∧ (0 : ℚ) ≤ 0 ∧
    edm_damage_test.calc_damage_percentages.struct_damage.get? 1 = some (mkRat 16 1000) ∧
    edm_damage_test.calc_damage_percentages.contents_damage.get? 1 = some (mkRat 13 1000) ∧
    (mkRat 16 1000 : ℚ) ≠ 0 ∧ (mkRat 13 1000 : ℚ) ≠ 0 := by
  refine ⟨by decide, le_refl 0, ?_, ?_, by decide, by decide⟩
  · norm_num [EventDamageModel.calc_damage_percentages, edm_damage_test,
      struct_damage_curve, struct_damage_at_one, Rat.mkRat_eq_div, List.zipWith]
  · norm_num [EventDamageModel.calc_damage_percentages, edm_damage_test,
      contents_damage_curve, Rat.mkRat_eq_div, List.zipWith]

/-- C4 (amended): for every asset whose depth is strictly negative the damage
fraction calculator yields structural and contents fractions exactly 0 (the
dry case); at depth exactly 0 the calibration values 0.016 and 0.013 apply
instead. -/
theorem dry_depth_fractions_zero (edm : EventDamageModel) (j : ℕ) (d : ℚ) (w : Wall)
    (hd : edm.max_depths.get? j = some d) (hw : edm.walls.get? j = some w)
    (hneg : d < 0) :
    edm.calc_damage_percentages.struct_damage.get? j = some 0 ∧
    edm.calc_damage_percentages.contents_damage.get? j = some 0 := by
  constructor <;>
  · simp only [EventDamageModel.calc_damage_percentages]
    rw [List.get?_zipWith', hw, hd]
    simp [struct_damage_curve, contents_damage_curve, hneg]

/-- Witness for the amended C4 at asset 0 of the test vector (depth -0.3). -/
theorem dry_depth_fractions_zero_witness :
    edm_damage_test.calc_damage_percentages.struct_damage.get? 0 = some 0 ∧
    edm_damage_test.calc_damage_percentages.contents_damage.get? 0 = some 0 :=
  dry_depth_fractions_zero edm_damage_test 0 (mkRat (-3) 10) Wall.DoubleBrick
    (by decide) (by decide) (by decide)

/-- C8: the damage fraction calculator is idempotent (running it twice
without re-running the resolver leaves the whole model state identical) and
is a pure function of the depth and wall-category columns only. -/
theorem calc_damage_percentages_idempotent (edm edm2 : EventDamageModel) :
    edm.calc_damage_percentages.calc_damage_percentages = edm.calc_damage_percentages ∧
    (edm.max_depths = edm2.max_depths → edm.walls = edm2.walls →
      edm.calc_damage_percentages.struct_damage = edm2.calc_damage_percentages.struct_damage ∧
      edm.calc_damage_percentages.contents_damage =
        edm2.calc_damage_percentages.contents_damage) := by
  constructor
  · rfl
  · intro h1 h2
    constructor <;> simp [EventDamageModel.calc_damage_percentages, h1, h2]

/-- Witness for C8 on the nine-asset test vector. -/
theorem calc_damage_percentages_idempotent_witness :
    edm_damage_test.calc_damage_percentages.calc_damage_percentages =
      edm_damage_test.calc_damage_percentages ∧
    edm_damage_test.calc_damage_percentages.struct_damage =
      edm_damage_test.calc_damage_percentages.struct_damage :=
  ⟨(calc_damage_percentages_idempotent edm_damage_test edm_damage_test).1,
   ((calc_damage_percentages_idempotent edm_damage_test edm_damage_test).2 rfl rfl).1⟩

/-- C6: the cost aggregator sets each structural loss to the structural
fraction times the structural cost and each contents loss to the contents
fraction times the contents cost, independently, and the event totals equal
the sums of the per-asset losses. -/
theorem calc_cost_loss (edm : EventDamageModel) (j : ℕ) (f1 c1 f2 c2 : ℚ) :
    (edm.struct_damage.get? j = some f1 → edm.struct_costs.get? j = some c1 →
      edm.calc_cost.struct_loss.get? j = some (f1 * c1)) ∧
    (edm.contents_damage.get? j = some f2 → edm.content_costs.get? j = some c2 →
      edm.calc_cost.contents_loss.get? j = some (f2 * c2)) ∧
    edm.calc_cost.total_struct_loss = edm.calc_cost.struct_loss.sum ∧
    edm.calc_cost.total_contents_loss = edm.calc_cost.contents_loss.sum := by
  refine ⟨?_, ?_, ?_, ?_⟩
  · intro hf hc
    simp only [EventDamageModel.calc_cost]
    rw [List.get?_zipWith', hf, hc]
    rfl
  · intro hf hc
    simp only [EventDamageModel.calc_cost]
    rw [List.get?_zipWith', hf, hc]
    rfl
  · simp only [EventDamageModel.calc_cost]
    rw [foldl_add_eq_sum, zero_add]
  · simp only [EventDamageModel.calc_cost]
    rw [foldl_add_eq_sum, zero_add]

/-- Witness for C6 on a single-asset model. -/
theorem calc_cost_loss_witness :
    edm_cost_test.calc_cost.struct_loss.get? 0 = some (mkRat 618 1000 * 10) ∧
    edm_cost_test.calc_cost.contents_loss.get? 0 = some (mkRat 970 1000 * 100) ∧
    edm_cost_test.calc_cost.total_struct_loss = edm_cost_test.calc_cost.struct_loss.sum :=
  ⟨(calc_cost_loss edm_cost_test 0 (mkRat 618 1000) 10 (mkRat 970 1000) 100).1
      (by decide) (by decide),
   (calc_cost_loss edm_cost_test 0 (mkRat 618 1000) 10 (mkRat 970 1000) 100).2.1
      (by decide) (by decide),
   (calc_cost_loss edm_cost_test 0 (mkRat 618 1000) 10 (mkRat 970 1000) 100).2.2.1⟩

/-- Entry j of the override is entry j of the input, forced to 1 exactly when
the absolute position i + j is listed as collapsed. -/
theorem override_from_get? (c : List ℕ) :
    ∀ (xs : List ℚ) (i j : ℕ),
      (override_from c i xs).get? j =
        (xs.get? j).map (fun x => if i + j ∈ c then 1 else x) := by
  intro xs
  induction xs with
  | nil => intro i j; simp [override_from]
  | cons x xs ih =>
      intro i j
      cases j with
      | zero => simp [override_from]
      | succ j =>
          have harith : i + 1 + j = i + (j + 1) := by omega
          simp only [override_from, List.get?_cons_succ, ih (i + 1) j, harith]

/-- The override forces a listed in-range position to 1. -/
theorem override_from_sets_one (c : List ℕ) (xs : List ℚ) (j : ℕ)
    (hj : j ∈ c) (hlen : j < xs.length) :
    (override_from c 0 xs).get? j = some 1 := by
  rw [override_from_get?, List.get?_eq_get hlen]
  simp [hj]

/-- The override leaves an unlisted position unchanged. -/
theorem override_from_skips (c : List ℕ) (xs : List ℚ) (j : ℕ) (hj : j ∉ c) :
    (override_from c 0 xs).get? j = xs.get? j := by
  rw [override_from_get?]
  cases xs.get? j <;> simp [hj]

/-- The clamped collapse count never exceeds the group size. -/
theorem collapse_count_le (p : ℚ) (n : ℕ) : collapse_count p n ≤ n :=
  min_le_left _ _

/-- Taking the first k indices of a group is a valid random source. -/
theorem take_pick_valid : ValidPick take_pick := by
  intro k l hk hnd
  refine ⟨?_, (List.take_sublist k l).nodup hnd, fun j hj => (List.take_sublist k l).subset hj⟩
  rw [take_pick, List.length_take]
  omega

/-- A valid random source never selects an index outside the groups it is
shown: an index in no group is never collapsed. -/
theorem not_mem_resolve (pick : ℕ → List ℕ → List ℕ) (hv : ValidPick pick) (j : ℕ) :
    ∀ groups : List (ℚ × List ℕ), (∀ g ∈ groups, g.2.Nodup) →
      (∀ g ∈ groups, j ∉ g.2) → j ∉ resolve_collapses pick groups := by
  intro groups
  induction groups with
  | nil => intro _ _; simp [resolve_collapses]
  | cons g rest ih =>
      intro hnd hng
      obtain ⟨p, js⟩ := g
      have hjs : js.Nodup := hnd (p, js) (List.mem_cons_self _ _)
      intro hmem
      rcases List.mem_append.mp hmem with hl | hr
      · exact hng (p, js) (List.mem_cons_self _ _)
          ((hv _ js (collapse_count_le p js.length) hjs).2.2 j hl)
      · exact ih (fun g2 h2 => hnd g2 (List.mem_cons_of_mem _ h2))
          (fun g2 h2 => hng g2 (List.mem_cons_of_mem _ h2)) hr

/-- C5: every asset selected by the stochastic collapse resolver has both its
structural and contents damage fractions forced to exactly 1. -/
theorem collapsed_fractions_one (pick : ℕ → List ℕ → List ℕ) (edm : EventDamageModel)
    (groups : List (ℚ × List ℕ)) (v : Bool) (j : ℕ)
    (hj : j ∈ resolve_collapses pick groups)
    (hs : j < edm.struct_damage.length) (hc : j < edm.contents_damage.length) :
    (EventDamageModel.calc_collapse_structures pick edm groups v).struct_damage.get? j =
      some 1 ∧
    (EventDamageModel.calc_collapse_structures pick edm groups v).contents_damage.get? j =
      some 1 := by
  refine ⟨?_, ?_⟩
  · simp only [EventDamageModel.calc_collapse_structures, EventDamageModel.apply_collapse]
    exact override_from_sets_one _ _ _ hj hs
  · simp only [EventDamageModel.calc_collapse_structures, EventDamageModel.apply_collapse]
    exact override_from_sets_one _ _ _ hj hc

/-- The resolved collapse set of the test map under the first-k source. -/
theorem resolve_take_eval :
    resolve_collapses take_pick test_groups = [1, 2, 3, 9, 10] := by
  norm_num [resolve_collapses, test_groups, collapse_count, round_half_away_from_zero,
    take_pick, Rat.mkRat_eq_div]
  decide

/-- Witness for C5: asset 1 of the 17-asset test model is collapsed and both
its fractions become exactly 1. -/
theorem collapsed_fractions_one_witness :
    (EventDamageModel.calc_collapse_structures take_pick edm_collapse_test test_groups
        true).struct_damage.get? 1 = some 1 ∧
    (EventDamageModel.calc_collapse_structures take_pick edm_collapse_test test_groups
        true).contents_damage.get? 1 = some 1 :=
  collapsed_fractions_one take_pick edm_collapse_test test_groups true 1
    (by rw [resolve_take_eval]; decide) (by decide) (by decide)

/-- C7: the resolver modifies only the selected members: any index not in the
resolved collapse set keeps exactly the damage fractions it had before
resolution, and under a valid random source an index lying in no
probability group (zero-probability asset) is never in the resolved set. -/
theorem calc_collapse_structures_frame (pick : ℕ → List ℕ → List ℕ)
    (edm : EventDamageModel) (groups : List (ℚ × List ℕ)) (v : Bool) (j : ℕ) :
    (j ∉ resolve_collapses pick groups →
      (EventDamageModel.calc_collapse_structures pick edm groups v).struct_damage.get? j =
        edm.struct_damage.get? j ∧
      (EventDamageModel.calc_collapse_structures pick edm groups v).contents_damage.get? j =
        edm.contents_damage.get? j) ∧
    (ValidPick pick → (∀ g ∈ groups, g.2.Nodup) → (∀ g ∈ groups, j ∉ g.2) →
      j ∉ resolve_collapses pick groups) := by
  constructor
  · intro hj
    constructor <;>
      · simp only [EventDamageModel.calc_collapse_structures, EventDamageModel.apply_collapse]
        exact override_from_skips _ _ _ hj
  · intro hv hnd hng
    exact not_mem_resolve pick hv j groups hnd hng

/-- Witness for C7: asset 5 of the 17-asset test model is in a group but not
selected; its fractions are untouched, and asset 20 lies in no group and is
not collapsed. -/
theorem calc_collapse_structures_frame_witness :
    ((EventDamageModel.calc_collapse_structures take_pick edm_collapse_test test_groups
        true).struct_damage.get? 5 = edm_collapse_test.struct_damage.get? 5 ∧
     (EventDamageModel.calc_collapse_structures take_pick edm_collapse_test test_groups
        true).contents_damage.get? 5 = edm_collapse_test.contents_damage.get? 5) ∧
    (20 : ℕ) ∉ resolve_collapses take_pick test_groups :=
  ⟨(calc_collapse_structures_frame take_pick edm_collapse_test test_groups true 5).1
      (by rw [resolve_take_eval]; decide),
   (calc_collapse_structures_frame take_pick edm_collapse_test test_groups true 20).2
      take_pick_valid (by decide) (by decide)⟩

/-- Invariant of the grouping pass: every accumulated group list is strictly
ascending and every member is below the next asset index. -/
def GroupsOk (n : ℕ) (groups : List (ℚ × List ℕ)) : Prop :=
  ∀ g ∈ groups, g.2.Sorted (· < ·) ∧ ∀ j ∈ g.2, j < n

/-- The grouping invariant is monotone in the index bound. -/
theorem groupsOk_mono (n m : ℕ) (h : n ≤ m) (groups : List (ℚ × List ℕ))
    (hg : GroupsOk n groups) : GroupsOk m groups :=
  fun g hgm => ⟨(hg g hgm).1, fun j hj => lt_of_lt_of_le ((hg g hgm).2 j hj) h⟩

/-- Appending the current index to its group preserves the invariant. -/
theorem groupsOk_add :
    ∀ (groups : List (ℚ × List ℕ)) (p : ℚ) (i : ℕ), GroupsOk i groups →
      GroupsOk (i + 1) (add_to_group groups p i) := by
  intro groups
  induction groups with
  | nil =>
      intro p i _ g hgm
      simp only [add_to_group, List.mem_singleton] at hgm
      subst hgm
      exact ⟨List.pairwise_singleton _ _, by simp⟩
  | cons hd rest ih =>
      intro p i hg g hgm
      obtain ⟨q, js⟩ := hd
      simp only [add_to_group] at hgm
      by_cases hqp : q = p
      · rw [if_pos hqp] at hgm
        rcases List.mem_cons.mp hgm with rfl | hgr
        · have hhd := hg (q, js) (List.mem_cons_self _ _)
          refine ⟨?_, ?_⟩
          · rw [List.Sorted, List.pairwise_append]
            refine ⟨hhd.1, List.pairwise_singleton _ _, fun a ha b hb => ?_⟩
            rw [List.mem_singleton] at hb
            subst hb
            exact hhd.2 a ha
          · intro j hj
            rcases List.mem_append.mp hj with h1 | h1
            · exact lt_of_lt_of_le (hhd.2 j h1) (Nat.le_succ i)
            · rw [List.mem_singleton] at h1
              omega
        · exact groupsOk_mono i (i + 1) (Nat.le_succ i) rest
            (fun g2 h2 => hg g2 (List.mem_cons_of_mem _ h2)) g hgr
      · rw [if_neg hqp] at hgm
        rcases List.mem_cons.mp hgm with rfl | hgr
        · exact groupsOk_mono i (i + 1) (Nat.le_succ i) [(q, js)]
            (fun g2 h2 => hg g2 (by
              rw [List.mem_singleton] at h2
              subst h2
              exact List.mem_cons_self _ _)) (q, js) (List.mem_cons_self _ _)
        · exact ih p i (fun g2 h2 => hg g2 (List.mem_cons_of_mem _ h2)) g hgr

/-- Every group list produced by the grouping pass is strictly ascending. -/
theorem group_pass_sorted :
    ∀ (pairs : List (ℚ × ℚ)) (i : ℕ) (groups : List (ℚ × List ℕ)),
      GroupsOk i groups →
      ∀ g ∈ group_pass pairs i groups, g.2.Sorted (· < ·) := by
  intro pairs
  induction pairs with
  | nil => intro i groups hg g hgm; exact (hg g hgm).1
  | cons pr rest ih =>
      intro i groups hg g hgm
      obtain ⟨d, sd⟩ := pr
      simp only [group_pass] at hgm
      by_cases hp : collapse_probability_lookup d sd = 0
      · rw [if_pos hp] at hgm
        exact ih (i + 1) groups (groupsOk_mono i (i + 1) (Nat.le_succ i) groups hg) g hgm
      · rw [if_neg hp] at hgm
        exact ih (i + 1) _ (groupsOk_add groups _ i hg) g hgm

/-- C10: in every grouping produced by the collapse probability calculator
each group's member list is strictly ascending in original asset order (the
order of the single pass), and in the calibration grouping the probability
0.05 maps to exactly the ordered list [1, 7]. -/
theorem calc_collapse_probability_ascending :
    (∀ edm : EventDamageModel, ∀ g ∈ edm.calc_collapse_probability,
        g.2.Sorted (· < ·)) ∧
    (∀ g ∈ edm_prob_test.calc_collapse_probability,
        g.1 = mkRat 5 100 → g.2 = [1, 7]) := by
  constructor
  · intro edm g hg
    exact group_pass_sorted _ 0 [] (fun g2 h2 => absurd h2 (List.not_mem_nil g2)) g hg
  · decide

/-- Witness for C10 at the calibration grouping's 0.05 group. -/
theorem calc_collapse_probability_ascending_witness :
    List.Sorted (fun a b : ℕ => a < b) [1, 7] ∧ ([1, 7] : List ℕ) = [1, 7] :=
  ⟨calc_collapse_probability_ascending.1 edm_prob_test (mkRat 5 100, [1, 7]) (by decide),
   calc_collapse_probability_ascending.2 (mkRat 5 100, [1, 7]) (by decide) rfl⟩

/-- The floor of a natural number plus one half is that number. -/
theorem floor_nat_add_half (n : ℕ) : Int.floor ((n : ℚ) + mkRat 1 2) = (n : ℤ) := by
  rw [Int.floor_eq_iff]
  constructor
  · push_cast
    norm_num [Rat.mkRat_eq_div]
  · push_cast
    norm_num [Rat.mkRat_eq_div]

/-- For a probability p in [0, 1], the rounded expected count of a group of
size n never exceeds n. -/
theorem round_toNat_le (p : ℚ) (n : ℕ) (h0 : 0 ≤ p) (h1 : p ≤ 1) :
    (round_half_away_from_zero (p * n)).toNat ≤ n := by
  have hcast : (0 : ℚ) ≤ (n : ℚ) := Nat.cast_nonneg n
  have hpn : 0 ≤ p * (n : ℚ) := mul_nonneg h0 hcast
  rw [round_half_away_from_zero, if_pos hpn, Int.toNat_le]
  have h2 : p * (n : ℚ) ≤ (n : ℚ) := by
    have := mul_le_of_le_one_left hcast h1
    linarith
  calc Int.floor (p * (n : ℚ) + mkRat 1 2)
      ≤ Int.floor ((n : ℚ) + mkRat 1 2) := Int.floor_le_floor (by linarith)
    _ = (n : ℤ) := floor_nat_add_half n

/-- Filtering a duplicate-free list by membership in a duplicate-free
selection drawn from it counts exactly the selection. -/
theorem length_filter_mem (is chosen : List ℕ) (hnd : is.Nodup) (hcd : chosen.Nodup)
    (hsub : ∀ j ∈ chosen, j ∈ is) :
    (is.filter (fun j => j ∈ chosen)).length = chosen.length := by
  have hperm : List.Perm (is.filter (fun j => j ∈ chosen)) chosen := by
    rw [List.perm_ext_iff_of_nodup (hnd.filter _) hcd]
    intro a
    simp only [List.mem_filter, decide_eq_true_eq]
    exact ⟨fun h => h.2, fun h => ⟨hsub a h, h⟩⟩
  exact hperm.length_eq

/-- Core counting argument: with pairwise-disjoint duplicate-free groups and
probabilities in [0, 1], each group contributes exactly its clamped expected
count of collapsed members, whichever valid random source is injected. -/
theorem resolve_count (pick : ℕ → List ℕ → List ℕ) (hv : ValidPick pick) :
    ∀ groups : List (ℚ × List ℕ),
      (∀ g ∈ groups, g.2.Nodup ∧ 0 ≤ g.1 ∧ g.1 ≤ 1) →
      groups.Pairwise (fun a b => ∀ j ∈ a.2, j ∉ b.2) →
      ∀ g ∈ groups,
        (g.2.filter (fun j => j ∈ resolve_collapses pick groups)).length =
          collapse_count g.1 g.2.length := by
  intro groups
  induction groups with
  | nil => intro _ _ g hg; cases hg
  | cons hd rest ih =>
      intro hprops hpw g hg
      obtain ⟨p, js⟩ := hd
      have hjsnd : js.Nodup := (hprops (p, js) (List.mem_cons_self _ _)).1
      have hk := hv (collapse_count p js.length) js (collapse_count_le p js.length) hjsnd
      have hpw2 := List.pairwise_cons.mp hpw
      rcases List.mem_cons.mp hg with rfl | hgr
      · simp only [resolve_collapses]
        have hcong : ∀ j ∈ js,
            (decide (j ∈ pick (collapse_count p js.length) js ++
                resolve_collapses pick rest)) =
            (decide (j ∈ pick (collapse_count p js.length) js)) := by
          intro j hj
          have hnot : j ∉ resolve_collapses pick rest := by
            apply not_mem_resolve pick hv j rest
            · intro g2 hg2
              exact (hprops g2 (List.mem_cons_of_mem _ hg2)).1
            · intro g2 hg2
              exact fun hmem => hpw2.1 g2 hg2 j hj hmem
          rw [decide_eq_decide]
          simp [List.mem_append, hnot]
        rw [List.filter_congr hcong]
        exact (length_filter_mem js _ hjsnd hk.2.1 hk.2.2).trans hk.1
      · simp only [resolve_collapses]
        have hcong : ∀ j ∈ g.2,
            (decide (j ∈ pick (collapse_count p js.length) js ++
                resolve_collapses pick rest)) =
            (decide (j ∈ resolve_collapses pick rest)) := by
          intro j hj
          have hnot : j ∉ pick (collapse_count p js.length) js := by
            intro hmem
            exact hpw2.1 g hgr j (hk.2.2 j hmem) hj
          rw [decide_eq_decide]
          simp [List.mem_append, hnot]
        rw [List.filter_congr hcong]
        exact ih (fun g2 h2 => hprops g2 (List.mem_cons_of_mem _ h2)) hpw2.2 g hgr

/-- C1: for every probability group with probability p in [0, 1] and n
duplicate-free, pairwise-disjoint member indices, the stochastic collapse
resolver selects exactly round_half_away_from_zero(p * n) members of that
group, whichever valid random source is injected, and this count never
exceeds n; on the test map the six per-group counts are exactly
0, 1, 1, 1, 0, 2. -/
theorem calc_collapse_structures_exact_count (pick : ℕ → List ℕ → List ℕ)
    (hv : ValidPick pick) (groups : List (ℚ × List ℕ))
    (hprops : ∀ g ∈ groups, g.2.Nodup ∧ 0 ≤ g.1 ∧ g.1 ≤ 1)
    (hpw : groups.Pairwise (fun a b => ∀ j ∈ a.2, j ∉ b.2)) :
    (∀ g ∈ groups,
        (g.2.filter (fun j => j ∈ resolve_collapses pick groups)).length =
          (round_half_away_from_zero (g.1 * g.2.length)).toNat ∧
        (g.2.filter (fun j => j ∈ resolve_collapses pick groups)).length ≤
          g.2.length) ∧
    (groups = test_groups →
      groups.map
          (fun g => (g.2.filter (fun j => j ∈ resolve_collapses pick groups)).length) =
        [0, 1, 1, 1, 0, 2]) := by
  have hmain := resolve_count pick hv groups hprops hpw
  have habs : ∀ g ∈ groups,
      (g.2.filter (fun j => j ∈ resolve_collapses pick groups)).length =
        (round_half_away_from_zero (g.1 * g.2.length)).toNat := by
    intro g hg
    have h1 := hmain g hg
    have hle := round_toNat_le g.1 g.2.length (hprops g hg).2.1 (hprops g hg).2.2
    rw [collapse_count, min_eq_right hle] at h1
    exact h1
  constructor
  · intro g hg
    refine ⟨habs g hg, ?_⟩
    rw [habs g hg]
    exact round_toNat_le g.1 g.2.length (hprops g hg).2.1 (hprops g hg).2.2
  · intro hgt
    subst hgt
    have e1 := habs (mkRat 4 10, [0]) (by decide)
    have e2 := habs (mkRat 6 10, [1]) (by decide)
    have e3 := habs (mkRat 5 10, [2]) (by decide)
    have e4 := habs (mkRat 25 100, [3, 4]) (by decide)
    have e5 := habs (mkRat 1 10, [5, 6, 7, 8]) (by decide)
    have e6 := habs (mkRat 2 10, [9, 10, 11, 12, 13, 14, 15, 16]) (by decide)
    simp only [test_groups, List.map_cons, List.map_nil] at e1 e2 e3 e4 e5 e6 ⊢
    rw [e1, e2, e3, e4, e5, e6]
    norm_num [round_half_away_from_zero, Rat.mkRat_eq_div]
    decide

/-- Witness for C1: the first-k random source on the test map yields exactly
the per-group collapse counts 0, 1, 1, 1, 0, 2. -/
theorem calc_collapse_structures_exact_count_witness :
    test_groups.map
        (fun g =>
          (g.2.filter (fun j => j ∈ resolve_collapses take_pick test_groups)).length) =
      [0, 1, 1, 1, 0, 2] :=
  (calc_collapse_structures_exact_count take_pick take_pick_valid test_groups
      (by decide) (by decide)).2 rfl

/-- If any wall string is outside the known enumeration, parsing the column
fails. -/
theorem parse_walls_eq_none (walls : List String) :
    (∃ w ∈ walls, parse_wall w = none) → parse_walls walls = none := by
  induction walls with
  | nil => rintro ⟨w, hw, _⟩; cases hw
  | cons s rest ih =>
      rintro ⟨w, hw, hnone⟩
      rcases List.mem_cons.mp hw with rfl | hwr
      · simp [parse_walls, hnone]
      · simp only [parse_walls]
        rw [ih ⟨w, hwr, hnone⟩]
        cases parse_wall s <;> rfl

/-- If every wall string is in the known enumeration, parsing the column
succeeds. -/
theorem parse_walls_isSome (walls : List String) :
    (∀ w ∈ walls, (parse_wall w).isSome) → (parse_walls walls).isSome := by
  induction walls with
  | nil => intro _; rfl
  | cons s rest ih =>
      intro h
      have hs := h s (List.mem_cons_self _ _)
      have hr := ih (fun w hw => h w (List.mem_cons_of_mem _ hw))
      rcases Option.isSome_iff_exists.mp hs with ⟨w, hw⟩
      rcases Option.isSome_iff_exists.mp hr with ⟨ws, hws⟩
      simp only [parse_walls]
      rw [hw, hws]
      rfl

/-- C9: a precondition violation — mismatched parallel-array lengths, a
negative cost, or a wall category outside the known enumeration — makes the
checked constructor reject the whole computation (fail fast, returning
none), while on valid input it succeeds.  Non-finite depth or distance has
no counterpart in the exact-rational model, where every value is finite. -/
theorem make_fail_fast (max_depths shore_distances : List ℚ) (walls : List String)
    (struct_costs content_costs : List ℚ) :
    ((¬ (max_depths.length = shore_distances.length ∧
         max_depths.length = walls.length ∧
         max_depths.length = struct_costs.length ∧
         max_depths.length = content_costs.length) ∨
      ¬ ((∀ c ∈ struct_costs, 0 ≤ c) ∧ (∀ c ∈ content_costs, 0 ≤ c)) ∨
      (∃ w ∈ walls, parse_wall w = none)) →
      EventDamageModel.make max_depths shore_distances walls struct_costs
        content_costs = none) ∧
    ((max_depths.length = shore_distances.length ∧
      max_depths.length = walls.length ∧
      max_depths.length = struct_costs.length ∧
      max_depths.length = content_costs.length) →
     ((∀ c ∈ struct_costs, 0 ≤ c) ∧ (∀ c ∈ content_costs, 0 ≤ c)) →
     (∀ w ∈ walls, (parse_wall w).isSome) →
     (EventDamageModel.make max_depths shore_distances walls struct_costs
        content_costs).isSome) := by
  constructor
  · intro h
    rcases h with h | h | h
    · rw [EventDamageModel.make, if_neg h]
    · by_cases h1 : max_depths.length = shore_distances.length ∧
          max_depths.length = walls.length ∧
          max_depths.length = struct_costs.length ∧
          max_depths.length = content_costs.length
      · rw [EventDamageModel.make, if_pos h1, if_neg h]
      · rw [EventDamageModel.make, if_neg h1]
    · by_cases h1 : max_depths.length = shore_distances.length ∧
          max_depths.length = walls.length ∧
          max_depths.length = struct_costs.length ∧
          max_depths.length = content_costs.length
      · by_cases h2 : (∀ c ∈ struct_costs, 0 ≤ c) ∧ (∀ c ∈ content_costs, 0 ≤ c)
        · rw [EventDamageModel.make, if_pos h1, if_pos h2, parse_walls_eq_none walls h]
        · rw [EventDamageModel.make, if_pos h1, if_neg h2]
      · rw [EventDamageModel.make, if_neg h1]
  · intro h1 h2 h3
    rw [EventDamageModel.make, if_pos h1, if_pos h2]
    rcases Option.isSome_iff_exists.mp (parse_walls_isSome walls h3) with ⟨ws, hws⟩
    rw [hws]
    rfl

/-- Witness for C9: a length mismatch, a negative cost and an unknown wall
category are each rejected, and a fully valid input is accepted. -/
theorem make_fail_fast_witness :
    EventDamageModel.make [0] [] ["Timber"] [] [] = none ∧
    EventDamageModel.make [0] [0] ["Straw"] [1] [2] = none ∧
    EventDamageModel.make [0] [0] ["Timber"] [mkRat (-1) 1] [2] = none ∧
    (EventDamageModel.make [0] [0] ["Timber"] [1] [2]).isSome :=
  ⟨(make_fail_fast [0] [] ["Timber"] [] []).1 (Or.inl (by decide)),
   (make_fail_fast [0] [0] ["Straw"] [1] [2]).1 (Or.inr (Or.inr (by decide))),
   (make_fail_fast [0] [0] ["Timber"] [mkRat (-1) 1] [2]).1 (Or.inr (Or.inl (by decide))),
   (make_fail_fast [0] [0] ["Timber"] [1] [2]).2 (by decide) (by decide) (by decide)⟩

/-- Witness for C2 at the 0.05 group of the calibration grouping. -/
theorem calc_collapse_probability_test_witness :
    (0 : ℕ) ∉ ([1, 7] : List ℕ) ∧ (2 : ℕ) ∉ ([1, 7] : List ℕ) :=
  calc_collapse_probability_test.2 (mkRat 5 100, [1, 7]) (by decide)

/-- Witness for C3 at the Timber category. -/
theorem calc_damage_percentages_calibration_witness :
    struct_damage_curve Wall.Timber 0 = mkRat 16 1000 :=
  calc_damage_percentages_calibration.1 Wall.Timber
